import Mathlib

/-
Verification of the qorpo price-tracking service (src/main.py, src/config.py)
against its natural-language specification.

Shallow embedding conventions:
* Python strings are lists of Unicode code points (`PyStr`); literals are
  produced by `strCodes`.
* `str.upper` / `str.lower` are modelled on the ASCII range, the only range
  exercised by the service's currency symbols and fixed literals.
* The PostgreSQL store is an association list from table name to the list of
  rows of that table, in insertion order; a row is the pair of the stored
  second-precision timestamp rendering and the numeric value.
* Bid prices and NUMERIC column values are modelled as exact rationals.
* The platform local timezone of `datetime.fromtimestamp` is a fixed offset
  `tz` in seconds east of UTC, an environment parameter of the handler.
* Handler outcomes are `ok` (the JSON response), `httpError` (a raised
  fastapi.HTTPException with status code and detail), or `pyError` (an
  uncaught Python exception with its message).
-/

namespace Qorpo

/-- Python strings, modelled as lists of Unicode code points. -/
abbrev PyStr := List Nat

/-- Code points of a Lean string literal, used to transcribe the Python
string literals of the source. -/
def strCodes (s : String) : PyStr := s.data.map Char.toNat

/-- Python `str.upper` on one code point, ASCII range (`a`-`z` is 97-122). -/
def upperChar (c : Nat) : Nat := if 97 ≤ c ∧ c ≤ 122 then c - 32 else c

/-- Python `str.lower` on one code point, ASCII range (`A`-`Z` is 65-90). -/
def lowerChar (c : Nat) : Nat := if 65 ≤ c ∧ c ≤ 90 then c + 32 else c

/-- Python `s.upper()`. -/
def strUpper (s : PyStr) : PyStr := s.map upperChar

/-- Python `s.lower()`. -/
def strLower (s : PyStr) : PyStr := s.map lowerChar

/-- Python `s.replace("/", "_")`; `/` is code point 47, `_` is 95. -/
def replaceSlashUnderscore (s : PyStr) : PyStr :=
  s.map (fun c => if c = 47 then 95 else c)

/-- Python `currency_symbol = f"{currency.upper()}/USDT"` (src/main.py lines 30,
150, 207). -/
def currency_symbol (currency : PyStr) : PyStr :=
  strUpper currency ++ strCodes "/USDT"

/-- Python `table_name = currency_symbol.replace("/", "_").lower()` as computed in
the `price` handler (src/main.py line 31). -/
def table_name_price (currency : PyStr) : PyStr :=
  strLower (replaceSlashUnderscore (currency_symbol currency))

/-- The same derivation as computed in the `price_history` handler
(src/main.py line 151). -/
def table_name_history (currency : PyStr) : PyStr :=
  strLower (replaceSlashUnderscore (currency_symbol currency))

/-- The same derivation as computed in the `delete_table` handler
(src/main.py line 208). -/
def table_name_delete (currency : PyStr) : PyStr :=
  strLower (replaceSlashUnderscore (currency_symbol currency))

theorem lowerChar_upperChar (c : Nat) : lowerChar (upperChar c) = lowerChar c := by
  unfold upperChar lowerChar
  split_ifs <;> omega

theorem upperChar_ne_slash {c : Nat} (h : c ≠ 47) : upperChar c ≠ 47 := by
  unfold upperChar
  split_ifs <;> omega

/-- C2: for a currency path parameter `X` (which, as a single path segment,
contains no `/`), the derived table name is `lowercase(X) ++ "_usdt"`, and
the three handlers derive the identical name. -/
theorem table_name_is_lower_usdt (X : PyStr) (h : 47 ∉ X) :
    table_name_price X = strLower X ++ strCodes "_usdt" ∧
    table_name_price X = table_name_history X ∧
    table_name_price X = table_name_delete X := by
  refine ⟨?_, rfl, rfl⟩
  unfold table_name_price currency_symbol strLower strUpper replaceSlashUnderscore
  rw [List.map_append, List.map_append, List.map_map, List.map_map]
  have h1 : X.map ((lowerChar ∘ fun c => if c = 47 then 95 else c) ∘ upperChar) =
      X.map lowerChar := by
    apply List.map_congr_left
    intro a ha
    have hne : upperChar a ≠ 47 := upperChar_ne_slash (fun hc => h (hc ▸ ha))
    simp only [Function.comp, if_neg hne]
    exact lowerChar_upperChar a
  rw [h1]
  rfl

/-- Witness for `table_name_is_lower_usdt` at the concrete input "BtC". -/
theorem table_name_is_lower_usdt_witness :
    47 ∉ strCodes "BtC" ∧
    table_name_price (strCodes "BtC") = strLower (strCodes "BtC") ++ strCodes "_usdt" := by
  refine ⟨by decide, ?_⟩
  exact (table_name_is_lower_usdt (strCodes "BtC") (by decide)).1

/-- Proleptic-Gregorian civil date (year, month, day) of a day count relative
to 1970-01-01, the conversion performed inside `datetime`.  All divisions are
floor divisions (`Int./` is Euclidean division, which agrees with floor
division for the positive divisors used here). -/
def civilFromDays (z0 : Int) : Int × Int × Int :=
  let z := z0 + 719468
  let era := z / 146097
  let doe := z % 146097
  let yoe := (doe - doe / 1460 + doe / 36524 - doe / 146096) / 365
  let y := yoe + era * 400
  let doy := doe - (365 * yoe + yoe / 4 - yoe / 100)
  let mp := (5 * doy + 2) / 153
  let d := doy - (153 * mp + 2) / 5 + 1
  let m := if mp < 10 then mp + 3 else mp - 9
  (if m ≤ 2 then y + 1 else y, m, d)

/-- Two-digit zero-padded decimal rendering (code points). -/
def pad2 (n : Int) : PyStr := [48 + n.toNat / 10 % 10, 48 + n.toNat % 10]

/-- Four-digit zero-padded decimal rendering (code points). -/
def pad4 (n : Int) : PyStr :=
  [48 + n.toNat / 1000 % 10, 48 + n.toNat / 100 % 10, 48 + n.toNat / 10 % 10, 48 + n.toNat % 10]

/-- Rendering `strftime('%Y-%m-%d %H:%M:%S')` of the naive datetime that lies `s` whole
seconds after 1970-01-01 00:00:00; a naive datetime is represented by that
signed second count. -/
def renderEpochSeconds (s : Int) : PyStr :=
  let days := s / 86400
  let sod := s % 86400
  let ymd := civilFromDays days
  pad4 ymd.1 ++ [45] ++ pad2 ymd.2.1 ++ [45] ++ pad2 ymd.2.2 ++ [32] ++
    pad2 (sod / 3600) ++ [58] ++ pad2 (sod % 3600 / 60) ++ [58] ++ pad2 (sod % 60)

/-- Python `datetime.fromtimestamp(x)`: converts POSIX seconds `x` to a naive
datetime in the platform local timezone, modelled as the fixed offset `tz`
seconds east of UTC.  Only the whole-second part matters for the format the
service uses, so the result is the represented second count `⌊x⌋ + tz`. -/
def fromtimestamp (tz : Int) (x : ℚ) : Int := ⌊x⌋ + tz

/-- src/main.py lines 36-37: `timestamp_seconds = ticker.get("timestamp")/1_000`
(true division of the millisecond timestamp, modelled exactly in ℚ) followed by
`datetime.fromtimestamp(timestamp_seconds).strftime('%Y-%m-%d %H:%M:%S')`. -/
def price_date (tz : Int) (tsMs : Int) : PyStr :=
  renderEpochSeconds (fromtimestamp tz ((tsMs : ℚ) / 1000))

/-- Modelled from the spec: "Converts timestamp to a second-precision,
UTC-naive formatted string" — the UTC rendering of `t/1000` with sub-second
precision dropped, i.e. the rendering of `⌊t/1000⌋` with no local offset. -/
def utc_formatted (tsMs : Int) : PyStr := renderEpochSeconds (tsMs / 1000)

theorem floor_div_thousand (ts : Int) : ⌊(ts : ℚ) / 1000⌋ = ts / 1000 := by
  have h := Rat.floor_intCast_div_natCast ts 1000
  norm_num at h
  exact h

theorem price_date_eq_shift (tz ts : Int) :
    price_date tz ts = renderEpochSeconds (ts / 1000 + tz) := by
  unfold price_date fromtimestamp
  rw [floor_div_thousand]

/-- C4 counterexample: on a host whose local timezone is one hour east of UTC
(offset 3600 s), the date formatted by the `price` handler for ticker
timestamp 0 ms is "1970-01-01 01:00:00", not the UTC rendering
"1970-01-01 00:00:00" — `datetime.fromtimestamp` uses local time. -/
theorem price_date_not_utc : price_date 3600 0 ≠ utc_formatted 0 := by
  rw [price_date_eq_shift]
  decide

/-- C4 amended: the formatted time is the second-precision rendering of
`⌊t/1000⌋` shifted by the host's local UTC offset; it coincides with the UTC
rendering exactly when that offset is zero. -/
theorem price_date_is_local_rendering (tz ts : Int) :
    price_date tz ts = renderEpochSeconds (ts / 1000 + tz) ∧
    (tz = 0 → price_date tz ts = utc_formatted ts) := by
  refine ⟨price_date_eq_shift tz ts, fun htz => ?_⟩
  rw [price_date_eq_shift, htz, add_zero]
  rfl

/-- Witness for `price_date_is_local_rendering`: with offset 0 and timestamp
0 the handler's rendering is the UTC rendering. -/
theorem price_date_is_local_rendering_witness :
    price_date 0 0 = utc_formatted 0 :=
  (price_date_is_local_rendering 0 0).2 rfl

/-- A stored row of a currency table: the `date` column (a second-precision
timestamp, represented by its `%Y-%m-%d %H:%M:%S` rendering, which the
round-trip through the TIMESTAMP column preserves) and the NUMERIC `value`. -/
abbrev Row := PyStr × ℚ

/-- The PostgreSQL store: an association list from table name to the rows of
that table in insertion order (the `id SERIAL` order `SELECT` returns). -/
abbrev Db := List (PyStr × List Row)

/-- Rows of the named table, `none` if it does not exist. -/
def lookupTable (n : PyStr) : Db → Option (List Row)
  | [] => none
  | (m, rows) :: db => if m = n then some rows else lookupTable n db

/-- Source `table_exist` (src/main.py lines 75-92): the information-schema existence
check for the named table. -/
def table_exist (n : PyStr) (db : Db) : Bool := (lookupTable n db).isSome

/-- Source `create_table` (src/main.py lines 95-105): creates the named empty table;
only ever called on a name that does not exist. -/
def create_table (n : PyStr) (db : Db) : Db := db ++ [(n, [])]

/-- Source `insert_data_to_table` (src/main.py lines 108-129): appends one
`(date, value)` row to the named table and commits. -/
def insert_data_to_table (n : PyStr) (d : PyStr) (v : ℚ) (db : Db) : Db :=
  db.map (fun e => if e.1 = n then (e.1, e.2 ++ [(d, v)]) else e)

/-- Source `delete_table_from_db` (src/main.py lines 227-240): `DROP TABLE IF
EXISTS`, removing the named table when present. -/
def delete_table_from_db (n : PyStr) (db : Db) : Db :=
  db.filter (fun e => if e.1 = n then false else true)

/-- One insertion step of a Python dict comprehension: if the key is already
bound its value is overwritten in place, otherwise the pair is appended. -/
def dictInsert (m : List Row) (k : PyStr) (v : ℚ) : List Row :=
  match m with
  | [] => [(k, v)]
  | (k0, v0) :: rest => if k0 = k then (k0, v) :: rest else (k0, v0) :: dictInsert rest k v

/-- Python dict lookup. -/
def dictLookup (k : PyStr) : List Row → Option ℚ
  | [] => none
  | (k0, v) :: rest => if k0 = k then some v else dictLookup k rest

/-- The dict comprehension of src/main.py line 190 applied to the selected
rows in order: later rows overwrite earlier ones at an equal key. -/
def dictOfRows (rows : List Row) : List Row :=
  rows.foldl (fun m r => dictInsert m r.1 r.2) []

/-- Source `get_history_prices` (src/main.py lines 170-190): select every row of the
named table and flatten into `{date_string: float(value)}`; re-rendering the
stored second-precision timestamp reproduces the stored date string, and
`float` is modelled as the identity on the exact stored value. -/
def get_history_prices (n : PyStr) (db : Db) : List Row :=
  dictOfRows ((lookupTable n db).getD [])

/-- The ticker snapshot `exchange.fetch_ticker` returns: the fields the
handler reads, each possibly absent. -/
structure Ticker where
  bid : Option ℚ
  timestamp : Option Int
deriving DecidableEq

/-- Outcome of one request: the JSON response, a raised
`fastapi.HTTPException` (status code, detail), or an uncaught Python
exception with its message. -/
inductive Outcome (α : Type) where
  | ok : α → Outcome α
  | httpError : Nat → PyStr → Outcome α
  | pyError : PyStr → Outcome α
deriving DecidableEq

/-- The JSON body a successful `GET /price/{currency}` returns
(src/main.py lines 56-58). -/
structure PriceResponse where
  currency : PyStr
  last_bid_price : ℚ
  time : PyStr
deriving DecidableEq

/-- The `price` handler (src/main.py lines 13-60).  `fetch` is the outcome of
`ccxt.kucoin()` / `fetch_ticker` (`.error e` a raised `ccxt.BaseError` with
message `e`); `dbError` tells whether the store operations of the inner
`try` raise (connection refused, etc.) before any write commits — such an
error is printed and swallowed.  Control flow as in the source: the KuCoin
error is mapped to HTTP 400; the timestamp is divided by 1000 before the bid
check, so a `None` timestamp raises an uncaught `TypeError`; a `None` bid
raises HTTP 400 before any store access (an `HTTPException` is not a
`ccxt.BaseError`, so the outer handler does not absorb it). -/
def price (tz : Int) (fetch : Except PyStr Ticker) (dbError : Bool) (db : Db)
    (currency : PyStr) : Outcome PriceResponse × Db :=
  match fetch with
  | .error e =>
    (.httpError 400 (strCodes "An error occurred with KuCoin API: " ++ e), db)
  | .ok ticker =>
    match ticker.timestamp with
    | none =>
      (.pyError (strCodes "TypeError: unsupported operand type for NoneType and int"), db)
    | some ts =>
      let date := price_date tz ts
      match ticker.bid with
      | none =>
        (.httpError 400 (strCodes "Could not find bid price for " ++ currency_symbol currency), db)
      | some p =>
        let tn := table_name_price currency
        let db2 :=
          if dbError then db
          else insert_data_to_table tn date p
            (if table_exist tn db then db else create_table tn db)
        (.ok ⟨currency, p, date⟩, db2)

/-- The `price_history` handler (src/main.py lines 132-167): raises a plain
`Exception` (not mapped to any HTTP status) when the table does not exist,
otherwise returns the flattened history mapping.  Read-only: the store is
unchanged either way. -/
def price_history (db : Db) (currency : PyStr) : Outcome (List Row) :=
  let tn := table_name_history currency
  if table_exist tn db then .ok (get_history_prices tn db)
  else .pyError (strCodes "Table " ++ tn ++ strCodes " does not exist.")

/-- The JSON body a successful `DELETE /delete/{currency}` returns
(src/main.py line 224). -/
def delete_response : List (PyStr × Bool) := [(strCodes "Table deleted successfully", true)]

/-- The `delete_table` handler (src/main.py lines 193-224): raises a plain
`Exception` when the table does not exist (leaving the store unchanged),
otherwise drops the table and reports success. -/
def delete_table (db : Db) (currency : PyStr) : Outcome (List (PyStr × Bool)) × Db :=
  let tn := table_name_delete currency
  if table_exist tn db then (.ok delete_response, delete_table_from_db tn db)
  else (.pyError (strCodes "Table " ++ tn ++ strCodes " does not exist."), db)

/-- C1: when the exchange returns a bid price `p` and a timestamp `ts`, the
`price` handler answers `{currency: X, last_bid_price: p, time: formatted(ts)}`
whether or not the store write-back fails: the response component is the same
for both values of `dbError`, because the inner `try` swallows every store
error and the handler falls through to the `return`. -/
theorem price_response_regardless_of_store (tz ts : Int) (p : ℚ) (dbError : Bool)
    (db : Db) (X : PyStr) :
    (price tz (.ok ⟨some p, some ts⟩) dbError db X).1 =
      .ok ⟨X, p, price_date tz ts⟩ := by
  cases dbError <;> rfl

/-- C3: a ticker with a timestamp but no bid yields HTTP 400 with a detail
mentioning the bid price for the requested symbol; a KuCoin transport error
yields HTTP 400 with the API-error detail; and the two details are never
equal, so the bid-absent error is not absorbed by the transport-error path. -/
theorem no_bid_http_400 (tz ts : Int) (dbError : Bool) (db : Db) (X : PyStr) :
    (price tz (.ok ⟨none, some ts⟩) dbError db X).1 =
      .httpError 400 (strCodes "Could not find bid price for " ++ currency_symbol X) ∧
    (∀ e : PyStr, price tz (.error e) dbError db X =
      (.httpError 400 (strCodes "An error occurred with KuCoin API: " ++ e), db)) ∧
    ∀ e : PyStr,
      strCodes "Could not find bid price for " ++ currency_symbol X ≠
        strCodes "An error occurred with KuCoin API: " ++ e := by
  refine ⟨rfl, fun e => rfl, fun e h => ?_⟩
  have h2 : (67 : Nat) = 65 := congrArg (fun l => l.headD 0) h
  exact absurd h2 (by decide)

/-- C9: on the bid-absent error path the store component of the handler's
result is exactly the incoming store — the HTTP 400 is raised before any
connection is opened, so no table is created and no row inserted for `X`. -/
theorem no_bid_store_unchanged (tz ts : Int) (dbError : Bool) (db : Db) (X : PyStr) :
    (price tz (.ok ⟨none, some ts⟩) dbError db X).2 = db ∧
    table_exist (table_name_price X) (price tz (.ok ⟨none, some ts⟩) dbError db X).2 =
      table_exist (table_name_price X) db :=
  ⟨rfl, rfl⟩

/-- C10: the ticker timestamp is divided by 1000 before the bid is checked,
so a ticker with no timestamp makes the handler fail with an uncaught
`TypeError` — never an `HTTPException` — even when the bid is also absent;
a present timestamp is thus a precondition of every non-`TypeError` outcome. -/
theorem none_timestamp_type_error (tz : Int) (bid : Option ℚ) (dbError : Bool)
    (db : Db) (X : PyStr) :
    price tz (.ok ⟨bid, none⟩) dbError db X =
      (.pyError (strCodes "TypeError: unsupported operand type for NoneType and int"), db) ∧
    ∀ (s : Nat) (d : PyStr),
      (price tz (.ok ⟨bid, none⟩) dbError db X).1 ≠ .httpError s d := by
  refine ⟨rfl, fun s d h => ?_⟩
  exact Outcome.noConfusion h

/-- C5: on a currency whose table does not exist, both the history and the
delete handlers raise the "Table ... does not exist." exception — no crash of
another shape, no select result, and the delete leaves the store unchanged
without dropping anything. -/
theorem missing_table_errors (db : Db) (X : PyStr)
    (h : table_exist (table_name_history X) db = false) :
    price_history db X =
      .pyError (strCodes "Table " ++ table_name_history X ++ strCodes " does not exist.") ∧
    delete_table db X =
      (.pyError (strCodes "Table " ++ table_name_delete X ++ strCodes " does not exist."), db) := by
  simp only [table_name_history] at h
  constructor
  · simp only [price_history, table_name_history]
    rw [h]
    simp
  · simp only [delete_table, table_name_delete]
    rw [h]
    simp

/-- Witness for `missing_table_errors`: the empty store and currency "btc". -/
theorem missing_table_errors_witness :
    table_exist (table_name_history (strCodes "btc")) [] = false ∧
    price_history [] (strCodes "btc") =
      .pyError (strCodes "Table " ++ table_name_history (strCodes "btc") ++
        strCodes " does not exist.") :=
  ⟨by decide, (missing_table_errors [] (strCodes "btc") (by decide)).1⟩

theorem lookupTable_delete (n : PyStr) : ∀ db : Db,
    lookupTable n (delete_table_from_db n db) = none
  | [] => rfl
  | e :: db => by
    have ih := lookupTable_delete n db
    unfold delete_table_from_db at ih ⊢
    rw [List.filter_cons]
    by_cases he : e.1 = n
    · simpa [he] using ih
    · simpa [lookupTable, he] using ih

/-- C8: deleting an existing table returns the success body and drops the
table, after which the history handler raises "Table ... does not exist." -/
theorem delete_then_history (db : Db) (X : PyStr)
    (h : table_exist (table_name_delete X) db = true) :
    delete_table db X =
      (.ok delete_response, delete_table_from_db (table_name_delete X) db) ∧
    price_history (delete_table db X).2 X =
      .pyError (strCodes "Table " ++ table_name_history X ++ strCodes " does not exist.") := by
  simp only [table_name_delete] at h
  have h1 : delete_table db X =
      (.ok delete_response, delete_table_from_db (table_name_delete X) db) := by
    simp only [delete_table, table_name_delete]
    rw [h]
    simp
  refine ⟨h1, ?_⟩
  rw [h1]
  simp only [price_history, table_name_history, table_name_delete]
  have h2 : table_exist (strLower (replaceSlashUnderscore (currency_symbol X)))
      (delete_table_from_db (strLower (replaceSlashUnderscore (currency_symbol X))) db) =
      false := by
    unfold table_exist
    rw [lookupTable_delete]
    rfl
  rw [h2]
  simp

/-- Witness for `delete_then_history`: a store holding the table "btc_usdt"
and currency "btc". -/
theorem delete_then_history_witness :
    table_exist (table_name_delete (strCodes "btc"))
      [(strCodes "btc_usdt", [])] = true ∧
    delete_table [(strCodes "btc_usdt", [])] (strCodes "btc") =
      (.ok delete_response,
        delete_table_from_db (table_name_delete (strCodes "btc"))
          [(strCodes "btc_usdt", [])]) :=
  ⟨by decide, (delete_then_history [(strCodes "btc_usdt", [])] (strCodes "btc") (by decide)).1⟩

theorem lookupTable_append (n : PyStr) : ∀ db db' : Db,
    lookupTable n (db ++ db') =
      match lookupTable n db with
      | some r => some r
      | none => lookupTable n db'
  | [], _ => rfl
  | (m, rows) :: db, db' => by
    by_cases he : m = n
    · simp [lookupTable, he]
    · simp only [List.cons_append, lookupTable, if_neg he]
      exact lookupTable_append n db db'

theorem lookupTable_insert (n d : PyStr) (v : ℚ) : ∀ db : Db,
    lookupTable n (insert_data_to_table n d v db) =
      (lookupTable n db).map (fun rows => rows ++ [(d, v)])
  | [] => rfl
  | (m, rows) :: db => by
    by_cases he : m = n
    · rw [show insert_data_to_table n d v ((m, rows) :: db) =
          (m, rows ++ [(d, v)]) :: insert_data_to_table n d v db from by
        simp [insert_data_to_table, he]]
      simp only [lookupTable, if_pos he]
      rfl
    · rw [show insert_data_to_table n d v ((m, rows) :: db) =
          (m, rows) :: insert_data_to_table n d v db from by
        simp [insert_data_to_table, he]]
      simp only [lookupTable, if_neg he]
      exact lookupTable_insert n d v db

theorem dictLookup_dictInsert_self (k : PyStr) (v : ℚ) : ∀ m : List Row,
    dictLookup k (dictInsert m k v) = some v
  | [] => by simp [dictInsert, dictLookup]
  | (k0, v0) :: rest => by
    by_cases he : k0 = k
    · simp [dictInsert, dictLookup, he]
    · simp only [dictInsert, if_neg he, dictLookup]
      exact dictLookup_dictInsert_self k v rest

theorem dictLookup_dictInsert_ne (k k' : PyStr) (v : ℚ) (h : k' ≠ k) : ∀ m : List Row,
    dictLookup k' (dictInsert m k v) = dictLookup k' m
  | [] => by simp [dictInsert, dictLookup, Ne.symm h]
  | (k0, v0) :: rest => by
    by_cases he : k0 = k
    · simp [dictInsert, dictLookup, he, Ne.symm h]
    · simp only [dictInsert, if_neg he, dictLookup]
      by_cases he' : k0 = k'
      · simp [he']
      · rw [if_neg he', if_neg he']
        exact dictLookup_dictInsert_ne k k' v h rest

theorem dictOfRows_append (rs ts : List Row) :
    dictOfRows (rs ++ ts) = ts.foldl (fun m r => dictInsert m r.1 r.2) (dictOfRows rs) := by
  unfold dictOfRows
  rw [List.foldl_append]

theorem dictLookup_foldl_ne (d : PyStr) : ∀ (rs m : List Row),
    (∀ r ∈ rs, r.1 ≠ d) →
    dictLookup d (rs.foldl (fun m r => dictInsert m r.1 r.2) m) = dictLookup d m
  | [], _, _ => rfl
  | r :: rs, m, h => by
    rw [List.foldl_cons]
    rw [dictLookup_foldl_ne d rs _ (fun x hx => h x (List.mem_cons_of_mem r hx))]
    exact dictLookup_dictInsert_ne r.1 d r.2 (Ne.symm (h r (List.mem_cons_self r rs))) m

theorem dictLookup_last (d : PyStr) (v : ℚ) (rows0 : List Row) :
    dictLookup d (dictOfRows (rows0 ++ [(d, v)])) = some v := by
  unfold dictOfRows
  rw [List.foldl_append]
  exact dictLookup_dictInsert_self d v _

theorem price_state_success (tz ts : Int) (p : ℚ) (db : Db) (X : PyStr) :
    (price tz (.ok ⟨some p, some ts⟩) false db X).2 =
      insert_data_to_table (table_name_price X) (price_date tz ts) p
        (if table_exist (table_name_price X) db then db
         else create_table (table_name_price X) db) := rfl

/-- C6: after a successful `GET /price/{X}` (bid `p`, timestamp `ts`, store
write succeeding), `GET /price/history/{X}` returns a mapping that binds the
formatted timestamp to the just-inserted value `p`: the row is appended as
the last row of the table, so it survives the dict flattening. -/
theorem price_then_history (tz ts : Int) (p : ℚ) (db : Db) (X : PyStr) :
    (price tz (.ok ⟨some p, some ts⟩) false db X).1 = .ok ⟨X, p, price_date tz ts⟩ ∧
    ∃ m, price_history (price tz (.ok ⟨some p, some ts⟩) false db X).2 X = .ok m ∧
      dictLookup (price_date tz ts) m = some p := by
  refine ⟨rfl, ?_⟩
  obtain ⟨rows0, hrows⟩ : ∃ rows0,
      lookupTable (table_name_price X) (price tz (.ok ⟨some p, some ts⟩) false db X).2 =
        some (rows0 ++ [(price_date tz ts, p)]) := by
    rw [price_state_success]
    by_cases hex : table_exist (table_name_price X) db = true
    · obtain ⟨rows, hr⟩ := Option.isSome_iff_exists.mp hex
      refine ⟨rows, ?_⟩
      rw [if_pos hex, lookupTable_insert, hr]
      rfl
    · have hnone : lookupTable (table_name_price X) db = none := by
        cases hlk : lookupTable (table_name_price X) db with
        | none => rfl
        | some r => exact absurd (by unfold table_exist; rw [hlk]; rfl) hex
      refine ⟨[], ?_⟩
      rw [if_neg hex, lookupTable_insert]
      unfold create_table
      rw [lookupTable_append, hnone]
      simp [lookupTable]
  have hex2 : table_exist (table_name_price X)
      (price tz (.ok ⟨some p, some ts⟩) false db X).2 = true := by
    unfold table_exist
    rw [hrows]
    rfl
  refine ⟨get_history_prices (table_name_price X)
    (price tz (.ok ⟨some p, some ts⟩) false db X).2, ?_, ?_⟩
  · simp only [price_history, table_name_history, table_name_price] at hex2 ⊢
    rw [hex2]
    simp
  · unfold get_history_prices
    rw [hrows]
    exact dictLookup_last (price_date tz ts) p rows0

theorem keys_dictInsert (k : PyStr) (v : ℚ) : ∀ m : List Row,
    (dictInsert m k v).map Prod.fst =
      if k ∈ m.map Prod.fst then m.map Prod.fst else m.map Prod.fst ++ [k]
  | [] => by simp [dictInsert]
  | (k0, v0) :: rest => by
    by_cases he : k0 = k
    · simp [dictInsert, he]
    · rw [show dictInsert ((k0, v0) :: rest) k v = (k0, v0) :: dictInsert rest k v from by
        simp [dictInsert, he]]
      rw [List.map_cons, keys_dictInsert k v rest, List.map_cons]
      by_cases hk : k ∈ rest.map Prod.fst
      · simp [hk, Ne.symm he]
      · simp [hk, Ne.symm he]

theorem nodup_keys_dictInsert (k : PyStr) (v : ℚ) (m : List Row)
    (h : (m.map Prod.fst).Nodup) : ((dictInsert m k v).map Prod.fst).Nodup := by
  rw [keys_dictInsert]
  by_cases hk : k ∈ m.map Prod.fst
  · simpa [hk] using h
  · simp [hk, List.nodup_append, h]

theorem nodup_keys_foldl : ∀ (rs m : List Row),
    (m.map Prod.fst).Nodup →
    ((rs.foldl (fun m r => dictInsert m r.1 r.2) m).map Prod.fst).Nodup
  | [], _, h => h
  | r :: rs, m, h => by
    rw [List.foldl_cons]
    exact nodup_keys_foldl rs _ (nodup_keys_dictInsert r.1 r.2 m h)

theorem nodup_keys_dictOfRows (rs : List Row) : ((dictOfRows rs).map Prod.fst).Nodup :=
  nodup_keys_foldl rs [] (by simp)

theorem dictLookup_mem_keys (d : PyStr) (v : ℚ) : ∀ m : List Row,
    dictLookup d m = some v → d ∈ m.map Prod.fst
  | [] => by simp [dictLookup]
  | (k0, v0) :: rest => by
    by_cases he : k0 = d
    · simp [he]
    · intro hl
      simp only [dictLookup, if_neg he] at hl
      simp [dictLookup_mem_keys d v rest hl]

theorem countP_eq_one_of_nodup_mem (d : PyStr) : ∀ l : List PyStr,
    l.Nodup → d ∈ l → l.countP (fun k => decide (k = d)) = 1
  | [], _, hm => absurd hm (List.not_mem_nil d)
  | a :: l, hnd, hm => by
    have hal : a ∉ l := (List.nodup_cons.mp hnd).1
    rcases List.mem_cons.mp hm with h | h
    · subst h
      rw [List.countP_cons_of_pos _ _ (by simp)]
      have h0 : l.countP (fun k => decide (k = d)) = 0 :=
        List.countP_eq_zero.mpr (fun k hk => by
          simp only [decide_eq_true_eq]
          exact fun hkd => hal (hkd ▸ hk))
      rw [h0]
    · have hne : a ≠ d := fun hea => hal (hea ▸ h)
      rw [List.countP_cons_of_neg _ _ (by simp [hne])]
      exact countP_eq_one_of_nodup_mem d l (List.nodup_cons.mp hnd).2 h

/-- C7: if the selected rows of a table contain two rows with the same
second-precision timestamp key `d` (values `v1` then later `v2`, with no
further `d`-row after), the flattened history mapping retains exactly one
entry at `d`, bound to the later value `v2` — last-write-wins collapsing. -/
theorem history_collapses_same_second (n d : PyStr) (v1 v2 : ℚ)
    (pre mid post : List Row) (db : Db)
    (hdb : lookupTable n db = some ((pre ++ (d, v1) :: mid) ++ (d, v2) :: post))
    (hpost : ∀ r ∈ post, r.1 ≠ d) :
    dictLookup d (get_history_prices n db) = some v2 ∧
    (get_history_prices n db).countP (fun r => decide (r.1 = d)) = 1 := by
  have hget : get_history_prices n db =
      dictOfRows ((pre ++ (d, v1) :: mid) ++ (d, v2) :: post) := by
    unfold get_history_prices
    rw [hdb]
    rfl
  have hlook : dictLookup d (get_history_prices n db) = some v2 := by
    rw [hget]
    unfold dictOfRows
    rw [List.foldl_append, List.foldl_cons]
    rw [dictLookup_foldl_ne d post _ hpost]
    exact dictLookup_dictInsert_self d v2 _
  refine ⟨hlook, ?_⟩
  have hnd : ((get_history_prices n db).map Prod.fst).Nodup := by
    rw [hget]
    exact nodup_keys_dictOfRows _
  have hmem : d ∈ (get_history_prices n db).map Prod.fst :=
    dictLookup_mem_keys d v2 _ hlook
  have hc := countP_eq_one_of_nodup_mem d _ hnd hmem
  rw [List.countP_map] at hc
  simpa [Function.comp] using hc

/-- Witness for `history_collapses_same_second`: a table holding two rows at
the same formatted second, values 3 then 5; the mapping keeps only 5. -/
theorem history_collapses_same_second_witness :
    dictLookup (strCodes "2024-01-01 00:00:00")
      (get_history_prices (strCodes "btc_usdt")
        [(strCodes "btc_usdt",
          [(strCodes "2024-01-01 00:00:00", 3), (strCodes "2024-01-01 00:00:00", 5)])]) =
      some 5 ∧
    (get_history_prices (strCodes "btc_usdt")
        [(strCodes "btc_usdt",
          [(strCodes "2024-01-01 00:00:00", 3),
           (strCodes "2024-01-01 00:00:00", 5)])]).countP
      (fun r => decide (r.1 = strCodes "2024-01-01 00:00:00")) = 1 :=
  history_collapses_same_second (strCodes "btc_usdt") (strCodes "2024-01-01 00:00:00")
    3 5 [] [] [] _ (by decide) (by simp)

/-- Witness for `price_response_regardless_of_store`: a concrete request with
bid 5, timestamp 0 and a failing store still returns the price response. -/
theorem price_response_regardless_of_store_witness :
    (price 0 (.ok ⟨some 5, some 0⟩) true [] (strCodes "btc")).1 =
      .ok ⟨strCodes "btc", 5, price_date 0 0⟩ :=
  price_response_regardless_of_store 0 0 5 true [] (strCodes "btc")

/-- Witness for `no_bid_http_400`: the concrete bid-absent request for "btc"
returns HTTP 400 with the bid-price detail. -/
theorem no_bid_http_400_witness :
    (price 0 (.ok ⟨none, some 0⟩) false [] (strCodes "btc")).1 =
      .httpError 400
        (strCodes "Could not find bid price for " ++ currency_symbol (strCodes "btc")) :=
  (no_bid_http_400 0 0 false [] (strCodes "btc")).1

/-- Witness for `no_bid_store_unchanged`: the concrete bid-absent request for
"btc" leaves the empty store empty. -/
theorem no_bid_store_unchanged_witness :
    (price 0 (.ok ⟨none, some 0⟩) false [] (strCodes "btc")).2 = [] :=
  (no_bid_store_unchanged 0 0 false [] (strCodes "btc")).1

/-- Witness for `none_timestamp_type_error`: the concrete timestamp-absent
ticker makes the handler fail with the TypeError outcome. -/
theorem none_timestamp_type_error_witness :
    price 0 (.ok ⟨none, none⟩) false [] (strCodes "btc") =
      (.pyError (strCodes "TypeError: unsupported operand type for NoneType and int"), []) :=
  (none_timestamp_type_error 0 none false [] (strCodes "btc")).1

/-- Witness for `price_then_history`: after the concrete successful price
request for "btc", the history mapping holds 5 at the formatted timestamp. -/
theorem price_then_history_witness :
    (price 0 (.ok ⟨some 5, some 0⟩) false [] (strCodes "btc")).1 =
      .ok ⟨strCodes "btc", 5, price_date 0 0⟩ :=
  (price_then_history 0 0 5 [] (strCodes "btc")).1

end Qorpo
